import Mathlib

/-!
Shallow embedding of the `zk-calculator` repository (a halo2-based
arithmetic-circuit calculator) for checking its specification.

The embedding mirrors, file by file:
* `src/chips/add.rs`, `src/chips/sub.rs`, `src/chips/mul.rs` — the three
  operator chips: each declares one selector-gated polynomial identity and an
  instruction that assigns a two-row region (operands at the base row, result
  at the next row).
* `src/chips/arithmetic.rs` — the composing chip: `configure`, `load_private`,
  `expose_public` and dispatch to the three operator chips.
* `src/calculator_circuit.rs` — the top-level `Circuit` implementation:
  `without_witnesses`, `configure`, `synthesize`.
* `src/zk_calculator.rs` — the driver: `Operator`, token parsing (`parse`,
  `FromToken`) and `run_circuit` (MockProver at `k = 4`).
* `src/errors.rs` — `ParserError` and `CircuitError`.

External halo2 behaviour that the code relies on is embedded explicitly:
`Value<F>` is `Option` (known/unknown), the `SimpleFloorPlanner` stacks each
region at the maximal current height of the columns the region uses, and
`MockProver::verify` checks every gate polynomial on every row together with
all copy (permutation) constraints against the public-input column.
-/

namespace ZkCalc

/-- The order of `pasta_curves::Fp` (the Pallas base field), the field the
driver instantiates the circuit with (`halo2_proofs::pasta::Fp`). -/
def P : ℕ := 28948022309329048855892746252171976963363056481941560715954676764349967630337

/-- The circuit's field: integers modulo the Pallas prime. -/
abbrev Fp := ZMod P

/-- halo2's `Value<V>`: a value that is either known (concrete) or unknown
(shape-only synthesis). -/
abbrev Value (α : Type) := Option α

/-- `Value::known`. -/
def Value.known {α : Type} (x : α) : Value α := some x

/-- `Value::unknown`; also `Value::default()` (halo2's `Default` impl returns
`Self::unknown()`). -/
def Value.unknown {α : Type} : Value α := none

/-- halo2 `Value` addition: known on two knowns, unknown otherwise. -/
def Value.add : Value Fp → Value Fp → Value Fp
  | some x, some y => some (x + y)
  | _, _ => none

/-- halo2 `Value` subtraction: known on two knowns, unknown otherwise. -/
def Value.sub : Value Fp → Value Fp → Value Fp
  | some x, some y => some (x - y)
  | _, _ => none

/-- `Operator` from `src/zk_calculator.rs`. -/
inductive Operator : Type where
  | Add : Operator
  | Sub : Operator
  | Mul : Operator
deriving DecidableEq, Repr

/-- The columns that can take part in copy constraints: the two shared advice
columns `a` and `b` allocated in `CalculatorCircuit::configure`, and the
instance column. -/
inductive Col : Type where
  | A : Col
  | B : Col
  | Inst : Col
deriving DecidableEq, Repr

/-- A table cell: a (column, row) coordinate, the identity used by copy
constraints. -/
structure Cell : Type where
  col : Col
  row : ℕ
deriving DecidableEq, Repr

/-- `Number<F>` from `src/chips/arithmetic.rs`: an `AssignedCell`, i.e. a cell
coordinate together with the (possibly unknown) value assigned there. -/
structure Number : Type where
  cell : Cell
  val : Value Fp

/-- The constraint table being filled during `synthesize`, together with the
floor planner's per-column height counters.  `adviceA`/`adviceB` record the
assignments made to the two advice columns (row, value); `selAdd`, `selSub`,
`selMul` record the rows at which each chip's selector is enabled; `copies`
records the copy constraints created by `copy_advice` and
`constrain_instance`. -/
structure LayoutState : Type where
  adviceA : List (ℕ × Value Fp)
  adviceB : List (ℕ × Value Fp)
  selAdd : List ℕ
  selSub : List ℕ
  selMul : List ℕ
  copies : List (Cell × Cell)
  posA : ℕ
  posB : ℕ
  posSelAdd : ℕ
  posSelSub : ℕ
  posSelMul : ℕ

/-- The empty table, before synthesis starts. -/
def LayoutState.initial : LayoutState :=
  { adviceA := [], adviceB := [], selAdd := [], selSub := [], selMul := []
    copies := [], posA := 0, posB := 0, posSelAdd := 0, posSelSub := 0, posSelMul := 0 }

/-- `ArithmeticChip::load_private` (`src/chips/arithmetic.rs`): a fresh
one-row region assigning `value` to advice column `a` at offset 0.  Under the
`SimpleFloorPlanner` the region starts at column `a`'s current height. -/
def ArithmeticChip.loadPrivate (st : LayoutState) (value : Value Fp) :
    LayoutState × Number :=
  let start := st.posA
  ({ st with adviceA := st.adviceA ++ [(start, value)], posA := start + 1 },
   ⟨⟨Col.A, start⟩, value⟩)

/-- `AddChip::add` (`src/chips/add.rs`): a two-row region that enables
`sel_add` at offset 0, copies the operands into columns `a` and `b` at offset
0, computes `a.value + b.value` and assigns it to column `a` at offset 1.
The region uses columns `a`, `b` and `sel_add`, so the floor planner starts it
at the maximum of those columns' heights and advances each to `start + 2`. -/
def AddChip.add (st : LayoutState) (a b : Number) : LayoutState × Number :=
  let start := max st.posA (max st.posB st.posSelAdd)
  let c := Value.add a.val b.val
  ({ st with
      selAdd := st.selAdd ++ [start],
      adviceA := st.adviceA ++ [(start, a.val), (start + 1, c)],
      adviceB := st.adviceB ++ [(start, b.val)],
      copies := st.copies ++ [(a.cell, ⟨Col.A, start⟩), (b.cell, ⟨Col.B, start⟩)],
      posA := start + 2, posB := start + 2, posSelAdd := start + 2 },
   ⟨⟨Col.A, start + 1⟩, c⟩)

/-- `SubChip::sub` (`src/chips/sub.rs`): as `AddChip::add` but the assigned
result is `a.value - b.value` and the enabled selector is `sel_sub`. -/
def SubChip.sub (st : LayoutState) (a b : Number) : LayoutState × Number :=
  let start := max st.posA (max st.posB st.posSelSub)
  let c := Value.sub a.val b.val
  ({ st with
      selSub := st.selSub ++ [start],
      adviceA := st.adviceA ++ [(start, a.val), (start + 1, c)],
      adviceB := st.adviceB ++ [(start, b.val)],
      copies := st.copies ++ [(a.cell, ⟨Col.A, start⟩), (b.cell, ⟨Col.B, start⟩)],
      posA := start + 2, posB := start + 2, posSelSub := start + 2 },
   ⟨⟨Col.A, start + 1⟩, c⟩)

/-- `MulChip::mul` (`src/chips/mul.rs`): enables `sel_mul`, copies the
operands, and assigns — exactly as the source line
`let c = a.0.value().copied() + b.0.value();` does — the SUM of the two
operand values into the result cell (the surrounding comments and the gate say
"product", but the executed expression is `+`). -/
def MulChip.mul (st : LayoutState) (a b : Number) : LayoutState × Number :=
  let start := max st.posA (max st.posB st.posSelMul)
  let c := Value.add a.val b.val
  ({ st with
      selMul := st.selMul ++ [start],
      adviceA := st.adviceA ++ [(start, a.val), (start + 1, c)],
      adviceB := st.adviceB ++ [(start, b.val)],
      copies := st.copies ++ [(a.cell, ⟨Col.A, start⟩), (b.cell, ⟨Col.B, start⟩)],
      posA := start + 2, posB := start + 2, posSelMul := start + 2 },
   ⟨⟨Col.A, start + 1⟩, c⟩)

/-- `ArithmeticChip::expose_public` (`src/chips/arithmetic.rs`):
`constrain_instance` creates a copy constraint between `num`'s cell and the
instance column at `row`. -/
def ArithmeticChip.exposePublic (st : LayoutState) (num : Number) (row : ℕ) :
    LayoutState :=
  { st with copies := st.copies ++ [(num.cell, ⟨Col.Inst, row⟩)] }

/-- `CalculatorCircuit` (`src/calculator_circuit.rs`). -/
structure CalculatorCircuit : Type where
  a : Value Fp
  b : Value Fp
  operator : Operator

/-- `Circuit::without_witnesses` for `CalculatorCircuit`: both values are
replaced by `Value::default()`, the operator is cloned. -/
def CalculatorCircuit.withoutWitnesses (c : CalculatorCircuit) : CalculatorCircuit :=
  { a := default, b := default, operator := c.operator }

/-- `CalculatorCircuit::synthesize`: load the two private values, dispatch on
the stored operator, expose the result at instance row 0. -/
def CalculatorCircuit.synthesize (c : CalculatorCircuit) : LayoutState :=
  let (st, a) := ArithmeticChip.loadPrivate LayoutState.initial c.a
  let (st, b) := ArithmeticChip.loadPrivate st c.b
  let (st, out) :=
    match c.operator with
    | Operator.Add => AddChip.add st a b
    | Operator.Sub => SubChip.sub st a b
    | Operator.Mul => MulChip.mul st a b
  ArithmeticChip.exposePublic st out 0

/-- Look a row up in an advice column's assignment list; unassigned cells are
unknown. -/
def lookupRow (l : List (ℕ × Value Fp)) (r : ℕ) : Value Fp :=
  match l with
  | [] => none
  | (row, v) :: rest => if row = r then v else lookupRow rest r

/-- The field value the verifier sees in advice column `a` at row `r`
(unassigned cells count as zero; every cell an enabled gate reads is assigned
in this circuit). -/
def evalA (st : LayoutState) (r : ℕ) : Fp := (lookupRow st.adviceA r).getD 0

/-- The field value the verifier sees in advice column `b` at row `r`. -/
def evalB (st : LayoutState) (r : ℕ) : Fp := (lookupRow st.adviceB r).getD 0

/-- A selector's value at a row: 1 where enabled, 0 elsewhere. -/
def selVal (enabled : List ℕ) (r : ℕ) : Fp := if r ∈ enabled then 1 else 0

/-- The "add" gate polynomial from `AddChip::configure`:
`sel_add * (lhs + rhs - out)`. -/
def addGate (sel lhs rhs out : Fp) : Fp := sel * (lhs + rhs - out)

/-- The "sub" gate polynomial from `SubChip::configure`:
`sel_sub * (lhs - rhs - out)`. -/
def subGate (sel lhs rhs out : Fp) : Fp := sel * (lhs - rhs - out)

/-- The "mul" gate polynomial from `MulChip::configure`:
`sel_mul * (lhs * rhs - out)`. -/
def mulGate (sel lhs rhs out : Fp) : Fp := sel * (lhs * rhs - out)

/-- All three gate polynomials evaluate to zero at row `r` (queries: `lhs` is
column `a` at the current rotation, `rhs` column `b` at the current rotation,
`out` column `a` at the next rotation). -/
def gatesHoldAt (st : LayoutState) (r : ℕ) : Prop :=
  addGate (selVal st.selAdd r) (evalA st r) (evalB st r) (evalA st (r + 1)) = 0 ∧
  subGate (selVal st.selSub r) (evalA st r) (evalB st r) (evalA st (r + 1)) = 0 ∧
  mulGate (selVal st.selMul r) (evalA st r) (evalB st r) (evalA st (r + 1)) = 0

instance (st : LayoutState) (r : ℕ) : Decidable (gatesHoldAt st r) := by
  unfold gatesHoldAt; infer_instance

/-- The (possibly unknown) value of a cell, with the instance column read from
the public-input list. -/
def cellValue (st : LayoutState) (pub : List Fp) (c : Cell) : Value Fp :=
  match c.col with
  | Col.A => lookupRow st.adviceA c.row
  | Col.B => lookupRow st.adviceB c.row
  | Col.Inst => pub.get? c.row

/-- Every copy (permutation) constraint links two cells of equal value. -/
def copiesHold (st : LayoutState) (pub : List Fp) : Prop :=
  ∀ p ∈ st.copies, cellValue st pub p.1 = cellValue st pub p.2

instance (st : LayoutState) (pub : List Fp) : Decidable (copiesHold st pub) := by
  unfold copiesHold; infer_instance

/-- `MockProver::verify` on a table of height `2^k`: every gate holds on every
row, and all copy constraints (including the instance constraint from
`expose_public`) are satisfied against the public inputs. -/
def Verifies (k : ℕ) (st : LayoutState) (pub : List Fp) : Prop :=
  (∀ r < 2 ^ k, gatesHoldAt st r) ∧ copiesHold st pub

instance (k : ℕ) (st : LayoutState) (pub : List Fp) : Decidable (Verifies k st pub) := by
  unfold Verifies; infer_instance

/-- The number of table rows the synthesized circuit occupies: the floor
planner's final height, i.e. the maximum of the per-column height counters. -/
def occupiedRows (st : LayoutState) : ℕ :=
  max st.posA (max st.posB (max st.posSelAdd (max st.posSelSub st.posSelMul)))

/-! ## The configure phase (`ConstraintSystem` state)

`CalculatorCircuit::configure` allocates the advice and instance columns from
a fresh `ConstraintSystem` and delegates to `ArithmeticChip::configure`, which
runs the three chips' `configure` in order and enables equality on the
instance column.  The state we track: which columns have equality (copy
constraints) enabled, how many selectors were allocated, and which gates were
created, in order. -/

/-- The mutable `ConstraintSystem` state threaded through `configure`. -/
structure ConstraintSystemState : Type where
  eqA : Bool
  eqB : Bool
  eqInstance : Bool
  selectorCount : ℕ
  gateNames : List String
deriving DecidableEq, Repr

/-- A fresh `ConstraintSystem` (`ConstraintSystem::default()`): no equality
enabled anywhere, no selectors, no gates. -/
def ConstraintSystemState.fresh : ConstraintSystemState :=
  { eqA := false, eqB := false, eqInstance := false, selectorCount := 0, gateNames := [] }

/-- `AddChip::configure` (`src/chips/add.rs`): allocates `sel_add` and creates
the "add" gate.  It does not enable equality on any column. -/
def AddChip.configure (meta : ConstraintSystemState) : ConstraintSystemState :=
  { meta with selectorCount := meta.selectorCount + 1, gateNames := meta.gateNames ++ ["add"] }

/-- `SubChip::configure` (`src/chips/sub.rs`): enables equality on both advice
columns, then allocates `sel_sub` and creates the "sub" gate. -/
def SubChip.configure (meta : ConstraintSystemState) : ConstraintSystemState :=
  { meta with eqA := true, eqB := true,
              selectorCount := meta.selectorCount + 1, gateNames := meta.gateNames ++ ["sub"] }

/-- `MulChip::configure` (`src/chips/mul.rs`): allocates `sel_mul` and creates
the "mul" gate.  It does not enable equality on any column. -/
def MulChip.configure (meta : ConstraintSystemState) : ConstraintSystemState :=
  { meta with selectorCount := meta.selectorCount + 1, gateNames := meta.gateNames ++ ["mul"] }

/-- `ArithmeticChip::configure` (`src/chips/arithmetic.rs`): add, sub and mul
configure in order, then equality is enabled on the instance column. -/
def ArithmeticChip.configure (meta : ConstraintSystemState) : ConstraintSystemState :=
  let meta := AddChip.configure meta
  let meta := SubChip.configure meta
  let meta := MulChip.configure meta
  { meta with eqInstance := true }

/-! ## The driver (`src/zk_calculator.rs`) and errors (`src/errors.rs`) -/

/-- `ParserError` from `src/errors.rs`. -/
inductive ParserError : Type where
  | invalidOperator : ParserError
  | invalidOperand : ParserError
  | tooManyInputs : ParserError
  | notEnoughInputs : ParserError
deriving DecidableEq, Repr

/-- `CircuitError` from `src/errors.rs` (the halo2 payloads of the first two
variants are not modelled). -/
inductive CircuitError : Type where
  | proverError : CircuitError
  | verifierError : CircuitError
  | noOperation : CircuitError
deriving DecidableEq, Repr

/-- `Operand` type alias (`type Operand = u64;`); values produced by the
parser are below `2 ^ 64`. -/
abbrev Operand := ℕ

/-- `Operation` from `src/zk_calculator.rs`. -/
structure Operation : Type where
  a : Operand
  b : Operand
  operator : Operator
deriving DecidableEq, Repr

/-- `ZkCalculator`: optionally stores the `Operation` to execute. -/
structure ZkCalculator : Type where
  operation : Option Operation
deriving DecidableEq, Repr

instance {ε α : Type} [DecidableEq ε] [DecidableEq α] : DecidableEq (Except ε α) := fun x y =>
  match x, y with
  | Except.ok a, Except.ok b =>
    if h : a = b then Decidable.isTrue (by rw [h])
    else Decidable.isFalse (by intro hh; cases hh; exact h rfl)
  | Except.error e, Except.error f =>
    if h : e = f then Decidable.isTrue (by rw [h])
    else Decidable.isFalse (by intro hh; cases hh; exact h rfl)
  | Except.ok _, Except.error _ => Decidable.isFalse (fun hh => Except.noConfusion hh)
  | Except.error _, Except.ok _ => Decidable.isFalse (fun hh => Except.noConfusion hh)

/-- `Operator::from_token`: `"+"`, `"-"`, `"*"`, anything else is
`InvalidOperator`. -/
def Operator.fromToken (token : String) : Except ParserError Operator :=
  match token with
  | "+" => Except.ok Operator.Add
  | "-" => Except.ok Operator.Sub
  | "*" => Except.ok Operator.Mul
  | _ => Except.error ParserError.invalidOperator

/-- The numeric value of a string of ASCII digits. -/
def digitsVal (cs : List Char) : ℕ :=
  cs.foldl (fun acc c => 10 * acc + (c.toNat - 48)) 0

/-- Rust's `str::parse::<u64>()`: an optional leading `+`, then at least one
ASCII digit, and the value must fit in a `u64`; anything else fails. -/
def parseU64 (s : String) : Option ℕ :=
  let cs := match s.data with
    | Char.ofNat 43 :: rest => rest
    | cs => cs
  if cs ≠ [] ∧ cs.all Char.isDigit ∧ digitsVal cs < 2 ^ 64 then some (digitsVal cs)
  else none

/-- `Operand::from_token`: `token.parse::<u64>()`, any failure mapped to
`InvalidOperand`. -/
def Operand.fromToken (token : String) : Except ParserError Operand :=
  match parseU64 token with
  | some operand => Except.ok operand
  | none => Except.error ParserError.invalidOperand

/-- Tokenizer worker: `acc` holds the characters of the current token in
reverse. -/
def splitWhitespaceAux : List Char → List Char → List String
  | [], acc => if acc = [] then [] else [String.mk acc.reverse]
  | c :: cs, acc =>
    if c.isWhitespace then
      (if acc = [] then [] else [String.mk acc.reverse]) ++ splitWhitespaceAux cs []
    else splitWhitespaceAux cs (c :: acc)

/-- Rust's `str::split_whitespace`: the maximal whitespace-free substrings, in
order, with no empty tokens. -/
def splitWhitespace (s : String) : List String :=
  splitWhitespaceAux s.data []

/-- `ZkCalculator::parse` on the token stream: reads operand, operator,
operand in order (a missing token is `NotEnoughInputs`, a malformed token
bubbles its own error), then rejects a remaining fourth token with
`TooManyInputs`, and otherwise stores the `Operation`. -/
def ZkCalculator.parseTokens (self : ZkCalculator) (tokens : List String) :
    Except ParserError ZkCalculator :=
  (match tokens.get? 0 with
    | some t => Operand.fromToken t
    | none => Except.error ParserError.notEnoughInputs).bind fun a =>
  (match tokens.get? 1 with
    | some t => Operator.fromToken t
    | none => Except.error ParserError.notEnoughInputs).bind fun operator =>
  (match tokens.get? 2 with
    | some t => Operand.fromToken t
    | none => Except.error ParserError.notEnoughInputs).bind fun b =>
  if (tokens.get? 3).isSome then Except.error ParserError.tooManyInputs
  else Except.ok { self with operation := some ⟨a, b, operator⟩ }

/-- `ZkCalculator::parse`: whitespace-tokenize the input line and parse the
tokens. -/
def ZkCalculator.parse (self : ZkCalculator) (input : String) :
    Except ParserError ZkCalculator :=
  self.parseTokens (splitWhitespace input)

/-- The arithmetic the driver uses to compute the public input `c` from the
operands (`src/zk_calculator.rs`, the `match operator` in `run_circuit`). -/
def Operator.apply (op : Operator) (a b : Fp) : Fp :=
  match op with
  | Operator.Add => a + b
  | Operator.Sub => a - b
  | Operator.Mul => a * b

/-- The driver's row parameter: `let k = 4;` in `run_circuit`. -/
def circuitK : ℕ := 4

/-- `ZkCalculator::run_circuit`: fails with `NoOperation` when no operation is
set; otherwise promotes the operands to field elements, computes the expected
public input, synthesizes the circuit and runs MockProver verification
against `[c]`, returning `c` on success. -/
def ZkCalculator.runCircuit (self : ZkCalculator) : Except CircuitError Fp :=
  match self.operation with
  | none => Except.error CircuitError.noOperation
  | some operation =>
    let a : Fp := (operation.a : Fp)
    let b : Fp := (operation.b : Fp)
    let c := operation.operator.apply a b
    let circuit : CalculatorCircuit :=
      { a := Value.known a, b := Value.known b, operator := operation.operator }
    let publicInputs := [c]
    let st := circuit.synthesize
    if Verifies circuitK st publicInputs then Except.ok c
    else Except.error CircuitError.verifierError

/-! ## Helper lemmas: the synthesized table, explicitly

Under the `SimpleFloorPlanner`, `load a` occupies row 0 of column `a`,
`load b` row 1 of column `a`, and the operator region rows 2–3 (its selector
at row 2, the result at row 3), with the three copy constraints created by the
two `copy_advice` calls and `expose_public`. -/

theorem synthesize_Add (va vb : Value Fp) :
    CalculatorCircuit.synthesize ⟨va, vb, Operator.Add⟩ =
    { adviceA := [(0, va), (1, vb), (2, va), (3, Value.add va vb)],
      adviceB := [(2, vb)],
      selAdd := [2], selSub := [], selMul := [],
      copies := [(⟨Col.A, 0⟩, ⟨Col.A, 2⟩), (⟨Col.A, 1⟩, ⟨Col.B, 2⟩),
                 (⟨Col.A, 3⟩, ⟨Col.Inst, 0⟩)],
      posA := 4, posB := 4, posSelAdd := 4, posSelSub := 0, posSelMul := 0 } := rfl

theorem synthesize_Sub (va vb : Value Fp) :
    CalculatorCircuit.synthesize ⟨va, vb, Operator.Sub⟩ =
    { adviceA := [(0, va), (1, vb), (2, va), (3, Value.sub va vb)],
      adviceB := [(2, vb)],
      selAdd := [], selSub := [2], selMul := [],
      copies := [(⟨Col.A, 0⟩, ⟨Col.A, 2⟩), (⟨Col.A, 1⟩, ⟨Col.B, 2⟩),
                 (⟨Col.A, 3⟩, ⟨Col.Inst, 0⟩)],
      posA := 4, posB := 4, posSelAdd := 0, posSelSub := 4, posSelMul := 0 } := rfl

theorem synthesize_Mul (va vb : Value Fp) :
    CalculatorCircuit.synthesize ⟨va, vb, Operator.Mul⟩ =
    { adviceA := [(0, va), (1, vb), (2, va), (3, Value.add va vb)],
      adviceB := [(2, vb)],
      selAdd := [], selSub := [], selMul := [2],
      copies := [(⟨Col.A, 0⟩, ⟨Col.A, 2⟩), (⟨Col.A, 1⟩, ⟨Col.B, 2⟩),
                 (⟨Col.A, 3⟩, ⟨Col.Inst, 0⟩)],
      posA := 4, posB := 4, posSelAdd := 0, posSelSub := 0, posSelMul := 4 } := rfl

/-- Exactly the public input `c' = a + b` makes the Add circuit verify. -/
theorem verifies_add_iff (a b c' : Fp) :
    Verifies circuitK
      (CalculatorCircuit.synthesize ⟨Value.known a, Value.known b, Operator.Add⟩) [c'] ↔
    c' = a + b := by
  rw [synthesize_Add]
  constructor
  · rintro ⟨-, hcopy⟩
    have h := hcopy (⟨Col.A, 3⟩, ⟨Col.Inst, 0⟩) (by simp)
    simp [cellValue, lookupRow, Value.known, Value.add] at h
    exact h.symm
  · rintro rfl
    refine ⟨?_, ?_⟩
    · intro r hr
      refine ⟨?_, ?_, ?_⟩
      · by_cases h2 : r = 2
        · subst h2
          simp [addGate, selVal, evalA, evalB, lookupRow, Value.known, Value.add]
        · simp [addGate, selVal, h2]
      · simp [subGate, selVal]
      · simp [mulGate, selVal]
    · intro p hp
      simp only [List.mem_cons, List.not_mem_nil, or_false] at hp
      rcases hp with rfl | rfl | rfl <;>
        simp [cellValue, lookupRow, Value.known, Value.add]

/-- Exactly the public input `c' = a - b` makes the Sub circuit verify. -/
theorem verifies_sub_iff (a b c' : Fp) :
    Verifies circuitK
      (CalculatorCircuit.synthesize ⟨Value.known a, Value.known b, Operator.Sub⟩) [c'] ↔
    c' = a - b := by
  rw [synthesize_Sub]
  constructor
  · rintro ⟨-, hcopy⟩
    have h := hcopy (⟨Col.A, 3⟩, ⟨Col.Inst, 0⟩) (by simp)
    simp [cellValue, lookupRow, Value.known, Value.sub] at h
    exact h.symm
  · rintro rfl
    refine ⟨?_, ?_⟩
    · intro r hr
      refine ⟨?_, ?_, ?_⟩
      · simp [addGate, selVal]
      · by_cases h2 : r = 2
        · subst h2
          simp [subGate, selVal, evalA, evalB, lookupRow, Value.known, Value.sub]
        · simp [subGate, selVal, h2]
      · simp [mulGate, selVal]
    · intro p hp
      simp only [List.mem_cons, List.not_mem_nil, or_false] at hp
      rcases hp with rfl | rfl | rfl <;>
        simp [cellValue, lookupRow, Value.known, Value.sub]

/-- The Mul circuit verifies against `c'` exactly when `c'` equals the
(wrongly) assigned witness `a + b` AND the gate identity `a * b = a + b`
happens to hold: the mul gate constrains the product, but `MulChip::mul`
assigns the sum. -/
theorem verifies_mul_iff (a b c' : Fp) :
    Verifies circuitK
      (CalculatorCircuit.synthesize ⟨Value.known a, Value.known b, Operator.Mul⟩) [c'] ↔
    (c' = a + b ∧ a * b = a + b) := by
  rw [synthesize_Mul]
  constructor
  · rintro ⟨hgate, hcopy⟩
    have h := hcopy (⟨Col.A, 3⟩, ⟨Col.Inst, 0⟩) (by simp)
    simp [cellValue, lookupRow, Value.known, Value.add] at h
    have hg := (hgate 2 (by decide)).2.2
    simp [mulGate, selVal, evalA, evalB, lookupRow, Value.known, Value.add] at hg
    exact ⟨h.symm, sub_eq_zero.mp hg⟩
  · rintro ⟨rfl, hmul⟩
    refine ⟨?_, ?_⟩
    · intro r hr
      refine ⟨?_, ?_, ?_⟩
      · simp [addGate, selVal]
      · simp [subGate, selVal]
      · by_cases h2 : r = 2
        · subst h2
          simp [mulGate, selVal, evalA, evalB, lookupRow, Value.known, Value.add,
                sub_eq_zero, hmul]
        · simp [mulGate, selVal, h2]
    · intro p hp
      simp only [List.mem_cons, List.not_mem_nil, or_false] at hp
      rcases hp with rfl | rfl | rfl <;>
        simp [cellValue, lookupRow, Value.known, Value.add]

/-! ## The claims -/

/-- Claim C1: the claim says every circuit built from known `(a, b, operator)`
verifies against the correct public input `c = a <op> b`, in particular
`a = 2, b = 3, Mul` against `[6]`.  The code violates this: `MulChip::mul`
assigns `a + b` into the result cell, so while the Add instance verifies
against its correct public input, the Mul instance is rejected against
`[2 * 3] = [6]` (the mul gate needs `2 * 3 = out` but `out = 5`, and the
instance constraint needs `out = 6`). -/
theorem claim1_mul_example_rejected :
    Verifies circuitK
      (CalculatorCircuit.synthesize ⟨Value.known 2, Value.known 3, Operator.Add⟩)
      [Operator.apply Operator.Add 2 3] ∧
    ¬ Verifies circuitK
      (CalculatorCircuit.synthesize ⟨Value.known 2, Value.known 3, Operator.Mul⟩)
      [Operator.apply Operator.Mul 2 3] := by decide

/-- Claim C2: the claim says each gate's apply writes the gate's arithmetic
function of the operands, in particular `MulChip::mul` assigns the product.
The code violates the Mul case: at `a = 2, b = 3` the value written into the
result cell (advice column `a`, row 3) is `Value::known(5)` — the sum — not
the product `6`. -/
theorem claim2_mul_assigns_sum :
    lookupRow
      (CalculatorCircuit.synthesize ⟨Value.known 2, Value.known 3, Operator.Mul⟩).adviceA 3
      = Value.known 5 ∧
    Value.known ((5 : Fp)) ≠ Value.known ((2 : Fp) * 3) := by decide

/-- Claim C3: for known `a, b`, any operator, and any public input
`c' ≠ c = a <op> b`, verification fails (never silently succeeds), and the
exposed result cell is copy-constrained to the instance column at row 0. -/
theorem claim3_wrong_public_input_rejected (a b : Fp) (op : Operator) (c' : Fp)
    (h : c' ≠ op.apply a b) :
    ¬ Verifies circuitK
        (CalculatorCircuit.synthesize ⟨Value.known a, Value.known b, op⟩) [c'] ∧
    ((⟨⟨Col.A, 3⟩, ⟨Col.Inst, 0⟩⟩ : Cell × Cell) ∈
      (CalculatorCircuit.synthesize ⟨Value.known a, Value.known b, op⟩).copies) := by
  cases op
  case Add =>
    refine ⟨fun hv => h ((verifies_add_iff a b c').mp hv), ?_⟩
    rw [synthesize_Add]; simp
  case Sub =>
    refine ⟨fun hv => h ((verifies_sub_iff a b c').mp hv), ?_⟩
    rw [synthesize_Sub]; simp
  case Mul =>
    refine ⟨fun hv => ?_, by rw [synthesize_Mul]; simp⟩
    rcases (verifies_mul_iff a b c').mp hv with ⟨h1, h2⟩
    exact h (h1.trans h2.symm)

/-- Witness for C3 at `a = 2, b = 3, Add, c' = 6 ≠ 5`. -/
theorem claim3_witness :
    (6 : Fp) ≠ Operator.apply Operator.Add 2 3 ∧
    ¬ Verifies circuitK
        (CalculatorCircuit.synthesize ⟨Value.known 2, Value.known 3, Operator.Add⟩) [6] :=
  ⟨by decide, (claim3_wrong_public_input_rejected 2 3 Operator.Add 6 (by decide)).1⟩

/-- Claim C4: subtraction wraps modulo the field's prime: for all known
`a, b` the Sub gate's assigned result is `a - b` computed in `Fp` (no range
check), the circuit verifies against exactly that field element, and at
`a = 2, b = 3` the result is the wrapped value `p - 1`, against which the
circuit verifies OK. -/
theorem claim4_sub_wraps_mod_p :
    (∀ a b : Fp,
      lookupRow
        (CalculatorCircuit.synthesize ⟨Value.known a, Value.known b, Operator.Sub⟩).adviceA 3
        = Value.known (a - b) ∧
      Verifies circuitK
        (CalculatorCircuit.synthesize ⟨Value.known a, Value.known b, Operator.Sub⟩)
        [a - b]) ∧
    (2 : Fp) - 3 = ((P - 1 : ℕ) : Fp) ∧
    Verifies circuitK
      (CalculatorCircuit.synthesize ⟨Value.known 2, Value.known 3, Operator.Sub⟩)
      [(2 : Fp) - 3] := by
  refine ⟨fun a b => ⟨?_, (verifies_sub_iff a b (a - b)).mpr rfl⟩,
          by decide, (verifies_sub_iff 2 3 _).mpr rfl⟩
  rw [synthesize_Sub]
  simp [lookupRow, Value.known, Value.sub]

/-- Claim C5: each gate polynomial has the form `selector * expression`: with
selector 0 it vanishes for all advice values, with selector 1 it vanishes
exactly when the gate's arithmetic relation holds; and in a synthesized Add
circuit the Sub and Mul selectors are never enabled, so their identities are
not constraining at any row. -/
theorem claim5_selector_gating :
    (∀ lhs rhs out : Fp,
        addGate 0 lhs rhs out = 0 ∧ subGate 0 lhs rhs out = 0 ∧
        mulGate 0 lhs rhs out = 0) ∧
    (∀ lhs rhs out : Fp,
        (addGate 1 lhs rhs out = 0 ↔ lhs + rhs = out) ∧
        (subGate 1 lhs rhs out = 0 ↔ lhs - rhs = out) ∧
        (mulGate 1 lhs rhs out = 0 ↔ lhs * rhs = out)) ∧
    (∀ (va vb : Value Fp) (r : ℕ) (x y z : Fp),
        subGate (selVal (CalculatorCircuit.synthesize ⟨va, vb, Operator.Add⟩).selSub r) x y z = 0 ∧
        mulGate (selVal (CalculatorCircuit.synthesize ⟨va, vb, Operator.Add⟩).selMul r) x y z = 0) := by
  refine ⟨fun lhs rhs out => ⟨zero_mul _, zero_mul _, zero_mul _⟩,
          fun lhs rhs out => ⟨?_, ?_, ?_⟩,
          fun va vb r x y z => ?_⟩
  · rw [addGate, one_mul, sub_eq_zero]
  · rw [subGate, one_mul, sub_eq_zero]
  · rw [mulGate, one_mul, sub_eq_zero]
  · rw [synthesize_Add]
    exact ⟨zero_mul _, zero_mul _⟩

/-- Claim C6: `without_witnesses()` keeps the operator tag and replaces both
values with the unknown placeholder (which is what `Value::default()` is). -/
theorem claim6_without_witnesses (c : CalculatorCircuit) :
    c.withoutWitnesses.operator = c.operator ∧
    c.withoutWitnesses.a = Value.unknown ∧
    c.withoutWitnesses.b = Value.unknown ∧
    (default : Value Fp) = Value.unknown :=
  ⟨rfl, rfl, rfl, rfl⟩

/-- Claim C7: every synthesis enables exactly the selector of the stored
operator (one two-row region at row 2; the other two selectors stay empty),
and `run_circuit` with no operation set fails with
`CircuitError::NoOperation` instead of defaulting. -/
theorem claim7_single_branch_and_no_operation :
    ZkCalculator.runCircuit ⟨none⟩ = Except.error CircuitError.noOperation ∧
    ∀ c : CalculatorCircuit,
      c.synthesize.selAdd = (if c.operator = Operator.Add then [2] else []) ∧
      c.synthesize.selSub = (if c.operator = Operator.Sub then [2] else []) ∧
      c.synthesize.selMul = (if c.operator = Operator.Mul then [2] else []) := by
  refine ⟨rfl, fun c => ?_⟩
  rcases c with ⟨va, vb, op⟩
  cases op <;> simp [synthesize_Add, synthesize_Sub, synthesize_Mul]

/-- Counterexample to C8 as stated: the input line `"x"` has fewer than three
tokens, yet the parser returns `InvalidOperand`, not `NotEnoughInputs` — the
first operand token is parsed (and its failure reported) before the token
count is known. -/
theorem claim8_counterexample :
    (splitWhitespace "x").length < 3 ∧
    (ZkCalculator.mk none).parse "x" = Except.error ParserError.invalidOperand ∧
    ParserError.invalidOperand ≠ ParserError.notEnoughInputs := by decide

/-- Claim C8 (amended): the parser reads operand, operator, operand from the
token stream in order; a missing token yields `NotEnoughInputs` and a
malformed token yields its own error (`InvalidOperand` / `InvalidOperator`),
whichever comes first; with three well-formed tokens a remaining fourth token
yields `TooManyInputs`, and otherwise `Operation { a, operator, b }` is
stored and `Ok` returned. -/
theorem claim8_amended (self : ZkCalculator) :
    (self.parseTokens [] = Except.error ParserError.notEnoughInputs) ∧
    (∀ t1 n1, Operand.fromToken t1 = Except.ok n1 →
      self.parseTokens [t1] = Except.error ParserError.notEnoughInputs) ∧
    (∀ t1 e rest, Operand.fromToken t1 = Except.error e →
      self.parseTokens (t1 :: rest) = Except.error e) ∧
    (∀ t1 n1 t2 op, Operand.fromToken t1 = Except.ok n1 →
      Operator.fromToken t2 = Except.ok op →
      self.parseTokens [t1, t2] = Except.error ParserError.notEnoughInputs) ∧
    (∀ t1 n1 t2 e rest, Operand.fromToken t1 = Except.ok n1 →
      Operator.fromToken t2 = Except.error e →
      self.parseTokens (t1 :: t2 :: rest) = Except.error e) ∧
    (∀ t1 n1 t2 op t3 e rest, Operand.fromToken t1 = Except.ok n1 →
      Operator.fromToken t2 = Except.ok op →
      Operand.fromToken t3 = Except.error e →
      self.parseTokens (t1 :: t2 :: t3 :: rest) = Except.error e) ∧
    (∀ t1 n1 t2 op t3 n3 t4 rest, Operand.fromToken t1 = Except.ok n1 →
      Operator.fromToken t2 = Except.ok op →
      Operand.fromToken t3 = Except.ok n3 →
      self.parseTokens (t1 :: t2 :: t3 :: t4 :: rest) =
        Except.error ParserError.tooManyInputs) ∧
    (∀ t1 n1 t2 op t3 n3, Operand.fromToken t1 = Except.ok n1 →
      Operator.fromToken t2 = Except.ok op →
      Operand.fromToken t3 = Except.ok n3 →
      self.parseTokens [t1, t2, t3] =
        Except.ok { self with operation := some ⟨n1, n3, op⟩ }) := by
  refine ⟨rfl, ?_, ?_, ?_, ?_, ?_, ?_, ?_⟩
  · intro t1 n1 h1
    simp [ZkCalculator.parseTokens, h1, Except.bind]
  · intro t1 e rest h1
    simp [ZkCalculator.parseTokens, h1, Except.bind]
  · intro t1 n1 t2 op h1 h2
    simp [ZkCalculator.parseTokens, h1, h2, Except.bind]
  · intro t1 n1 t2 e rest h1 h2
    simp [ZkCalculator.parseTokens, h1, h2, Except.bind]
  · intro t1 n1 t2 op t3 e rest h1 h2 h3
    simp [ZkCalculator.parseTokens, h1, h2, h3, Except.bind]
  · intro t1 n1 t2 op t3 n3 t4 rest h1 h2 h3
    simp [ZkCalculator.parseTokens, h1, h2, h3, Except.bind]
  · intro t1 n1 t2 op t3 n3 h1 h2 h3
    simp [ZkCalculator.parseTokens, h1, h2, h3, Except.bind]

/-- Witness for the amended C8 at the concrete lines `2 + 3` (accepted, the
operation stored) and `x` (rejected as an invalid operand). -/
theorem claim8_amended_witness :
    (ZkCalculator.mk none).parseTokens ["2", "+", "3"] =
      Except.ok ⟨some ⟨2, 3, Operator.Add⟩⟩ ∧
    (ZkCalculator.mk none).parseTokens ["x"] =
      Except.error ParserError.invalidOperand := by
  constructor
  · exact (claim8_amended ⟨none⟩).2.2.2.2.2.2.2 "2" 2 "+" Operator.Add "3" 3
      (by decide) (by decide) (by decide)
  · exact (claim8_amended ⟨none⟩).2.2.1 "x" ParserError.invalidOperand []
      (by decide)

/-- Counterexample to C9 as stated: the synthesized circuit occupies 4 table
rows, not 2 — two one-row `load_private` regions precede the two-row operator
region. -/
theorem claim9_counterexample :
    occupiedRows
      (CalculatorCircuit.synthesize ⟨Value.known 2, Value.known 3, Operator.Add⟩) ≠ 2 := by
  decide

/-- Claim C9 (amended): for every operator and witness the synthesized
circuit occupies 4 table rows (the operator's region is 2 rows, after two
one-row load regions), and the driver's `k = 4` gives a height `2^k = 16`
strictly greater than the rows occupied. -/
theorem claim9_amended (c : CalculatorCircuit) :
    occupiedRows c.synthesize = 4 ∧ occupiedRows c.synthesize < 2 ^ circuitK := by
  rcases c with ⟨va, vb, op⟩
  cases op <;> exact ⟨rfl, by show (4 : ℕ) < 2 ^ circuitK; decide⟩

/-- Claim C10: after `ArithmeticChip::configure`, equality is enabled on both
advice columns and on the instance column; the advice enablement happens only
in `SubChip::configure` (Add's and Mul's configure leave the equality flags
untouched, so running only them from a fresh system leaves the advice columns
without equality, on which every `copy_advice` would fail). -/
theorem claim10_equality_enablement (meta : ConstraintSystemState) :
    ((ArithmeticChip.configure meta).eqA = true ∧
     (ArithmeticChip.configure meta).eqB = true ∧
     (ArithmeticChip.configure meta).eqInstance = true) ∧
    ((AddChip.configure meta).eqA = meta.eqA ∧
     (AddChip.configure meta).eqB = meta.eqB ∧
     (AddChip.configure meta).eqInstance = meta.eqInstance) ∧
    ((MulChip.configure meta).eqA = meta.eqA ∧
     (MulChip.configure meta).eqB = meta.eqB ∧
     (MulChip.configure meta).eqInstance = meta.eqInstance) ∧
    ((SubChip.configure meta).eqA = true ∧ (SubChip.configure meta).eqB = true) ∧
    ((AddChip.configure (MulChip.configure ConstraintSystemState.fresh)).eqA = false ∧
     (AddChip.configure (MulChip.configure ConstraintSystemState.fresh)).eqB = false) :=
  ⟨⟨rfl, rfl, rfl⟩, ⟨rfl, rfl, rfl⟩, ⟨rfl, rfl, rfl⟩, ⟨rfl, rfl⟩, ⟨rfl, rfl⟩⟩

end ZkCalc
